import Mathlib

/-!
Shallow embedding of `tools/duplicated-spaces/duplicated_spaces/finder.py`.

The Python module exposes four functions:
  * `iso_to_datetime`  — parse Hub ISO-8601 timestamps (`strptime` with the
    formats `%Y-%m-%dT%H:%M:%S.%fZ` and `%Y-%m-%dT%H:%M:%SZ`) into an
    aware UTC datetime;
  * `readme_frontmatter_duplicated_from` — fetch a Space's raw README and
    extract `duplicated_from:` from its YAML frontmatter;
  * `get_recent_spaces` — yield the Spaces created within the last `days`
    days (entries without a creation time are yielded conservatively);
  * `find_duplicated_spaces` — the pipeline: window-filter the feed, resolve
    each entry's duplication claim (card metadata first, README fallback
    when deep detection is on) and collect the ids whose claim matches the
    query source.

The embedding below models Python strings as Lean `String`s, `str.strip`
variants as end-trimming by a character predicate, truthiness of optional
strings explicitly, feed entries as records of the attributes the code
reads, the network as an explicit `fetch` oracle, and datetimes as
microseconds since the Unix epoch (aware UTC datetimes compare exactly as
their epoch instants do).  Fallible paths return `Except`/`Option`.
`find_duplicated_spaces` is instrumented to also return the list of
README fetches it performs, so that frame properties ("no fetch happens
for this entry") are statable; the result list is its first projection.
-/

namespace DuplicatedSpaces

/-! ## Python string primitives -/

/-- Characters removed by Python's bare `str.strip()`: the full `str`
whitespace set — tab through carriage return (U+0009 to U+000D), the
information separators U+001C to U+001F, space, NEL (U+0085), NBSP
(U+00A0), the Ogham space mark (U+1680), the typographic spaces U+2000
to U+200A, the line and paragraph separators U+2028 and U+2029, U+202F,
U+205F and the ideographic space U+3000. -/
def pyIsSpace (c : Char) : Bool :=
  decide ((9 ≤ c.toNat ∧ c.toNat ≤ 13) ∨ (28 ≤ c.toNat ∧ c.toNat ≤ 32) ∨
    c.toNat = 133 ∨ c.toNat = 160 ∨ c.toNat = 5760 ∨
    (8192 ≤ c.toNat ∧ c.toNat ≤ 8202) ∨ c.toNat = 8232 ∨ c.toNat = 8233 ∨
    c.toNat = 8239 ∨ c.toNat = 8287 ∨ c.toNat = 12288)

/-- Characters removed by `str.strip("/ ")`. -/
def isSlashSpace (c : Char) : Bool :=
  c = '/' || c = ' '

/-- Characters removed by `str.strip("'\"")`. -/
def isQuote (c : Char) : Bool :=
  c = '\x27' || c = '"'

/-- Trim characters satisfying `p` from both ends of a character list. -/
def stripL (p : Char → Bool) (l : List Char) : List Char :=
  ((l.dropWhile p).reverse.dropWhile p).reverse

/-- `s.strip(chars)` for the character class `p`. -/
def pyStrip (p : Char → Bool) (s : String) : String :=
  ⟨stripL p s.data⟩

/-- `s.lower()` (ASCII case folding, the fragment relevant to repo ids). -/
def pyLower (s : String) : String :=
  ⟨s.data.map Char.toLower⟩

/-- The claim/source trimming performed by the code: `s.strip().strip("/ ")`. -/
def pyNormalize (s : String) : String :=
  pyStrip isSlashSpace (pyStrip pyIsSpace s)

/-- The full comparison normalization of the spec: trim, then case-fold. -/
def specNormalize (s : String) : String :=
  pyLower (pyNormalize s)

/-- Python truthiness of a string. -/
def strTruthy (s : String) : Bool :=
  !decide (s = "")

/-- Python truthiness of an optional string (`None` and `""` are falsy). -/
def optTruthy : Option String → Bool
  | some s => strTruthy s
  | none => false

/-- Python `a or b` on optional values, given the truthiness test. -/
def pyOr {α : Type} (truthy : α → Bool) : Option α → Option α → Option α
  | some x, b => if truthy x then some x else b
  | none, b => b

/-- Everything after the first `':'` (`line.split(":", 1)[1]`). -/
def afterFirstColon : List Char → List Char
  | [] => []
  | c :: cs => if c = ':' then cs else afterFirstColon cs

/-- Boolean prefix test on character lists (`str.startswith`). -/
def lPrefixOf : List Char → List Char → Bool
  | [], _ => true
  | _ :: _, [] => false
  | a :: as, b :: bs => a = b && lPrefixOf as bs

/-- The line boundaries of `str.splitlines()`: LF, VT, FF, CR, the file,
group and record separators U+001C to U+001E, NEL (U+0085) and the line
and paragraph separators U+2028/U+2029 (`\r\n` counts as one boundary,
handled by the splitter itself). -/
def isLineBreak (c : Char) : Bool :=
  decide (c.toNat = 10 ∨ c.toNat = 11 ∨ c.toNat = 12 ∨ c.toNat = 13 ∨
    c.toNat = 28 ∨ c.toNat = 29 ∨ c.toNat = 30 ∨ c.toNat = 133 ∨
    c.toNat = 8232 ∨ c.toNat = 8233)

/-- The scanning loop of `str.splitlines`: break at each line boundary,
treating `\r\n` as a single boundary, with no empty line after a
trailing boundary. -/
def splitLinesAux (cur : List Char) : List Char → List String
  | [] => [⟨cur.reverse⟩]
  | '\x0d' :: '\n' :: rest =>
    if rest.isEmpty then [⟨cur.reverse⟩]
    else (⟨cur.reverse⟩ : String) :: splitLinesAux [] rest
  | c :: rest =>
    if isLineBreak c then
      if rest.isEmpty then [⟨cur.reverse⟩]
      else (⟨cur.reverse⟩ : String) :: splitLinesAux [] rest
    else splitLinesAux (c :: cur) rest

/-- `text.splitlines()`. -/
def pySplitlines (s : String) : List String :=
  if s.data.isEmpty then [] else splitLinesAux [] s.data

/-! ## Data model: feed entries and the network oracle -/

/-- A card-metadata value: a Python string or some non-string value. -/
inductive PyVal where
  | str (s : String)
  | other
deriving DecidableEq

/-- A creation-time attribute value: an aware datetime (as microseconds
since the Unix epoch) or an ISO string still to be parsed. -/
inductive RawTime where
  | dt (t : Int)
  | str (s : String)
deriving DecidableEq

/-- Python truthiness of a `RawTime` (datetimes are truthy, `""` is not). -/
def rawTruthy : RawTime → Bool
  | RawTime.dt _ => true
  | RawTime.str s => strTruthy s

/-- A feed entry, with exactly the attributes `finder.py` reads
(`id`, `repo_id`, `created_at`, `createdAt`, `cardData`, `card_data`);
`none` stands for a missing attribute. -/
structure SpaceEntry where
  id : Option String := none
  repo_id : Option String := none
  created_at : Option RawTime := none
  createdAt : Option RawTime := none
  cardData : Option (List (String × PyVal)) := none
  card_data : Option (List (String × PyVal)) := none
deriving DecidableEq

/-- Outcome of `requests.get` on a README URL: a response with a status
code and a body, or a raised `RequestException`. -/
inductive FetchOutcome where
  | resp (status : Nat) (text : String)
  | exc
deriving DecidableEq

/-- `space_id = getattr(space, "id", None) or getattr(space, "repo_id", None)`,
collapsed to `none` when the combined value is falsy (`if not space_id`). -/
def resolveSpaceId (e : SpaceEntry) : Option String :=
  match pyOr strTruthy e.id e.repo_id with
  | some s => if strTruthy s then some s else none
  | none => none

/-- `created_at_raw = getattr(space, "created_at", None) or getattr(space,
"createdAt", None)`, collapsed to `none` when falsy (`if not created_at_raw`). -/
def resolveCreatedAt (e : SpaceEntry) : Option RawTime :=
  match pyOr rawTruthy e.created_at e.createdAt with
  | some r => if rawTruthy r then some r else none
  | none => none

/-- `card = getattr(space, "cardData", None) or getattr(space, "card_data", None)`
(an empty dict is falsy, so it falls through to the second attribute). -/
def cardOf (e : SpaceEntry) : Option (List (String × PyVal)) :=
  pyOr (fun c => !c.isEmpty) e.cardData e.card_data

/-- Dictionary lookup (`key in card` / `card[key]`). -/
def dictGet : List (String × PyVal) → String → Option PyVal
  | [], _ => none
  | (k, v) :: rest, key => if k = key then some v else dictGet rest key

/-- The key-priority loop of `find_duplicated_spaces`: the first of the
given keys present with a string value wins, and that value is trimmed by
`.strip().strip("/ ")`. -/
def cardKeyClaim (c : List (String × PyVal)) : List String → Option String
  | [] => none
  | k :: ks =>
    match dictGet c k with
    | some (PyVal.str s) => some (pyNormalize s)
    | _ => cardKeyClaim c ks

/-- The card-metadata duplication claim of an entry, if any. -/
def cardClaimOf (e : SpaceEntry) : Option String :=
  match cardOf e with
  | some c => cardKeyClaim c ["duplicated_from", "duplicatedFrom", "duplicated-from"]
  | none => none

/-! ## README frontmatter scanning (`readme_frontmatter_duplicated_from`) -/

/-- `line.split(":", 1)[1].strip().strip("'\"")`, then `value or None`. -/
def fmLineValue (line : String) : Option String :=
  let value := pyStrip isQuote (pyStrip pyIsSpace ⟨afterFirstColon line.data⟩)
  if strTruthy value then some value else none

/-- The line loop of `readme_frontmatter_duplicated_from`: `inFm` is the
`in_frontmatter` flag; a bare `---` line toggles it (and, when it toggles it
off, the loop breaks with no claim); inside the block, the first line whose
stripped form starts with `duplicated_from:` returns its value. -/
def fmScan : List String → Bool → Option String
  | [], _ => none
  | line :: rest, inFm =>
    if pyStrip pyIsSpace line = "---" then
      if inFm then none else fmScan rest true
    else if inFm && lPrefixOf "duplicated_from:".data (pyStrip pyIsSpace line).data then
      fmLineValue line
    else
      fmScan rest inFm

/-- The parsing half of `readme_frontmatter_duplicated_from`, applied to the
fetched README text. -/
def fmExtract (text : String) : Option String :=
  fmScan (pySplitlines text) false

/-- `readme_frontmatter_duplicated_from`, with the network as an explicit
oracle from Space id to fetch outcome: a non-200 status or a raised request
exception yields no claim; a 200 body is scanned for frontmatter. -/
def readme_frontmatter_duplicated_from (fetch : String → FetchOutcome)
    (space_id : String) : Option String :=
  match fetch space_id with
  | FetchOutcome.resp status text => if status ≠ 200 then none else fmExtract text
  | FetchOutcome.exc => none

/-! ## Timestamp parsing (`iso_to_datetime`) -/

/-- The result of `datetime.strptime(...).replace(tzinfo=timezone.utc)`:
calendar fields plus microseconds, with `utc` recording tz-awareness. -/
structure PyDateTime where
  year : Nat
  month : Nat
  day : Nat
  hour : Nat
  minute : Nat
  second : Nat
  usec : Nat
  utc : Bool
deriving DecidableEq

/-- The value of an ASCII decimal digit character. -/
def digitVal (c : Char) : Option Nat :=
  if '0' ≤ c ∧ c ≤ '9' then some (c.toNat - 48) else none

/-- The character of a decimal digit. -/
def digitChar : Nat → Char
  | 0 => '0' | 1 => '1' | 2 => '2' | 3 => '3' | 4 => '4'
  | 5 => '5' | 6 => '6' | 7 => '7' | 8 => '8' | _ => '9'

/-- Read exactly two digits (`%m`, `%d`, `%H`, `%M`, `%S` on zero-padded
input). -/
def read2 : List Char → Option (Nat × List Char)
  | a :: b :: rest =>
    match digitVal a, digitVal b with
    | some x, some y => some (10 * x + y, rest)
    | _, _ => none
  | _ => none

/-- Read exactly four digits (`%Y`). -/
def read4 (l : List Char) : Option (Nat × List Char) :=
  Option.bind (read2 l) fun (hi, r) =>
  Option.bind (read2 r) fun (lo, r2) =>
  some (100 * hi + lo, r2)

/-- Require a literal character. -/
def expectCh (c : Char) : List Char → Option (List Char)
  | [] => none
  | a :: rest => if a = c then some rest else none

/-- A literal cased letter under `re.IGNORECASE` (the `_strptime` regex is
compiled with it): either case is accepted. -/
def expectCI (c1 c2 : Char) : List Char → Option (List Char)
  | [] => none
  | a :: rest => if a = c1 ∨ a = c2 then some rest else none

/-- One numeric field of `strptime` matched by a two-digit-or-one-digit
alternation (`%m`, `%d`, `%H`, `%M`, `%S`): the two-digit alternatives
accept exactly the zero-padded values `min2..max2`, and the trailing `\d`
alternative accepts any single digit that is at least `min1` (so unpadded
fields parse, as in CPython).  A two-digit run whose value is out of range
falls back to the one-digit read, exactly as the regex backtracks; the
leftover digit then fails at the following literal separator. -/
def readFlex (min2 max2 min1 : Nat) : List Char → Option (Nat × List Char)
  | [] => none
  | a :: rest =>
    match digitVal a with
    | none => none
    | some x =>
      match rest with
      | [] => if min1 ≤ x then some (x, []) else none
      | b :: rest2 =>
        match digitVal b with
        | some y =>
          if min2 ≤ 10 * x + y ∧ 10 * x + y ≤ max2 then some (10 * x + y, rest2)
          else if min1 ≤ x then some (x, b :: rest2) else none
        | none => if min1 ≤ x then some (x, b :: rest2) else none

/-- Greedily take at most `n` leading digits. -/
def takeDigits : Nat → List Char → List Nat × List Char
  | 0, l => ([], l)
  | _ + 1, [] => ([], [])
  | n + 1, c :: rest =>
    match digitVal c with
    | some d => (d :: (takeDigits n rest).1, (takeDigits n rest).2)
    | none => ([], c :: rest)

/-- The value of a digit run, most significant first. -/
def digitsToNat (ds : List Nat) : Nat :=
  ds.foldl (fun a d => 10 * a + d) 0

/-- `%f`: one to six digits, right-padded with zeros to microseconds
(`strptime` appends `"0" * (6 - len(s))`). -/
def readFrac (l : List Char) : Option (Nat × List Char) :=
  if (takeDigits 6 l).1.isEmpty then none
  else some (digitsToNat (takeDigits 6 l).1 * 10 ^ (6 - (takeDigits 6 l).1.length),
    (takeDigits 6 l).2)

/-- Gregorian leap year (as `calendar.isleap`). -/
def isLeap (y : Nat) : Bool :=
  (y % 4 = 0 && y % 100 ≠ 0) || y % 400 = 0

/-- Number of days in a month. -/
def daysInMonth (y m : Nat) : Nat :=
  if m = 2 then (if isLeap y then 29 else 28)
  else if m = 4 || m = 6 || m = 9 || m = 11 then 30
  else 31

/-- The field ranges `datetime.strptime` enforces (regex ranges plus the
`datetime` constructor's validation). -/
def validDT (y mo d h mi s : Nat) : Bool :=
  decide (1 ≤ y ∧ y ≤ 9999 ∧ 1 ≤ mo ∧ mo ≤ 12 ∧ 1 ≤ d ∧ d ≤ daysInMonth y mo ∧
    h ≤ 23 ∧ mi ≤ 59 ∧ s ≤ 59)

/-- The shared `%Y-%m-%dT%H:%M:%S` head of both formats: a four-digit
year, the regex field alternations for month, day, hour, minute and
second (unpadded one-digit forms included) and a case-insensitive `T`. -/
def parseCommon (l : List Char) : Option (Nat × Nat × Nat × Nat × Nat × Nat × List Char) :=
  Option.bind (read4 l) fun (y, r) =>
  Option.bind (expectCh '-' r) fun r =>
  Option.bind (readFlex 1 12 1 r) fun (mo, r) =>
  Option.bind (expectCh '-' r) fun r =>
  Option.bind (readFlex 1 31 1 r) fun (d, r) =>
  Option.bind (expectCI 'T' 't' r) fun r =>
  Option.bind (readFlex 0 23 0 r) fun (h, r) =>
  Option.bind (expectCh ':' r) fun r =>
  Option.bind (readFlex 0 59 0 r) fun (mi, r) =>
  Option.bind (expectCh ':' r) fun r =>
  Option.bind (readFlex 0 61 0 r) fun (s, r) =>
  some (y, mo, d, h, mi, s, r)

/-- `datetime.strptime(value, "%Y-%m-%dT%H:%M:%S.%fZ")` (naive result;
the `Z` is case-insensitive like every cased literal). -/
def parseFracFmt (l : List Char) : Option PyDateTime :=
  Option.bind (parseCommon l) fun (y, mo, d, h, mi, s, r) =>
  Option.bind (expectCh '.' r) fun r =>
  Option.bind (readFrac r) fun (us, r) =>
  Option.bind (expectCI 'Z' 'z' r) fun r =>
  if r.isEmpty && validDT y mo d h mi s then some ⟨y, mo, d, h, mi, s, us, false⟩
  else none

/-- `datetime.strptime(value, "%Y-%m-%dT%H:%M:%SZ")` (naive result). -/
def parseNoFracFmt (l : List Char) : Option PyDateTime :=
  Option.bind (parseCommon l) fun (y, mo, d, h, mi, s, r) =>
  Option.bind (expectCI 'Z' 'z' r) fun r =>
  if r.isEmpty && validDT y mo d h mi s then some ⟨y, mo, d, h, mi, s, 0, false⟩
  else none

/-- `iso_to_datetime`: try the fractional format, fall back to the plain
one, make the result UTC-aware; anything else raises (here: `Except.error`
carrying the offending value). -/
def iso_to_datetime (value : String) : Except String PyDateTime :=
  match parseFracFmt value.data with
  | some dt => Except.ok { dt with utc := true }
  | none =>
    match parseNoFracFmt value.data with
    | some dt => Except.ok { dt with utc := true }
    | none => Except.error value

/-! ## Datetimes as epoch instants -/

/-- Days of the proleptic Gregorian calendar before January 1 of year `y`. -/
def daysBeforeYear (y : Nat) : Nat :=
  365 * (y - 1) + (y - 1) / 4 - (y - 1) / 100 + (y - 1) / 400

/-- Days before the first of month `m` in year `y`. -/
def daysBeforeMonth (y m : Nat) : Nat :=
  (List.range (m - 1)).foldl (fun a i => a + daysInMonth y (i + 1)) 0

/-- Proleptic Gregorian ordinal of a date (0001-01-01 is day 1). -/
def toOrdinal (y mo d : Nat) : Nat :=
  daysBeforeYear y + daysBeforeMonth y mo + d

/-- Microseconds per day. -/
def usecPerDay : Int := 86400000000

/-- The epoch instant of an aware UTC datetime, in microseconds; aware
datetimes compare exactly as these instants do. -/
def dtToMicro (dt : PyDateTime) : Int :=
  ((toOrdinal dt.year dt.month dt.day : Int) - (toOrdinal 1970 1 1 : Int)) * usecPerDay
    + ((dt.hour * 3600 + dt.minute * 60 + dt.second : Nat) : Int) * 1000000 + (dt.usec : Int)

/-! ## The window filter (`get_recent_spaces`) -/

/-- The creation instant the loop body computes for an entry: `none` when
the raw attribute is falsy (the entry is yielded conservatively), the
datetime itself when the attribute already is one, the parse of
`str(raw)` otherwise (a parse failure propagates). -/
def entryEpoch (e : SpaceEntry) : Except String (Option Int) :=
  match resolveCreatedAt e with
  | none => Except.ok none
  | some (RawTime.dt t) => Except.ok (some t)
  | some (RawTime.str s) => (iso_to_datetime s).map (fun d => some (dtToMicro d))

/-- The `for space in spaces_iter` loop of `get_recent_spaces`, with the
cutoff precomputed: yield entries with no creation time or with
`created_at >= cutoff`; skip the rest; let parse errors propagate. -/
def goRecent (cutoff : Int) : List SpaceEntry → Except String (List SpaceEntry)
  | [] => Except.ok []
  | e :: rest =>
    match entryEpoch e with
    | Except.error err => Except.error err
    | Except.ok none => (goRecent cutoff rest).map (fun l => e :: l)
    | Except.ok (some t) =>
      if cutoff ≤ t then (goRecent cutoff rest).map (fun l => e :: l)
      else goRecent cutoff rest

/-- `get_recent_spaces`: the feed (either listing path materialised as a
list, in feed order) filtered to the trailing window
`cutoff = now - timedelta(days=days)`. -/
def get_recent_spaces (now : Int) (days : Nat) (feed : List SpaceEntry) :
    Except String (List SpaceEntry) :=
  goRecent (now - (days : Int) * usecPerDay) feed

/-! ## The classifier (`find_duplicated_spaces`) -/

/-- The resolved duplication claim of the loop body: the card-metadata
value, overwritten by the (re-trimmed) README frontmatter value when the
card value is falsy and deep detection is on. -/
def resolveClaim (fetch : String → FetchOutcome) (deep : Bool) (e : SpaceEntry)
    (sid : String) : Option String :=
  let v0 := cardClaimOf e
  if !optTruthy v0 && deep then
    match readme_frontmatter_duplicated_from fetch sid with
    | some w => some (pyNormalize w)
    | none => none
  else v0

/-- One iteration of the `find_duplicated_spaces` loop on an entry, given
the already-trimmed query source: the match result (the entry id when the
resolved claim is truthy and equals the source case-insensitively), paired
with the list of README fetches the iteration performs. -/
def classifyEntry (fetch : String → FetchOutcome) (deep : Bool) (src : String)
    (e : SpaceEntry) : Option String × List String :=
  match resolveSpaceId e with
  | none => (none, [])
  | some sid =>
    let log := if !optTruthy (cardClaimOf e) && deep then [sid] else []
    match resolveClaim fetch deep e sid with
    | some c =>
      (if strTruthy c ∧ pyLower c = pyLower src then some sid else none, log)
    | none => (none, log)

/-- `find_duplicated_spaces`, instrumented: the matching ids in feed order,
paired with the ids whose README the run fetches. -/
def find_duplicated_spaces_traced (fetch : String → FetchOutcome) (now : Int)
    (feed : List SpaceEntry) (source : String) (days : Nat) (deep : Bool) :
    Except String (List String × List String) :=
  (get_recent_spaces now days feed).map (fun recents =>
    let pairs := recents.map (classifyEntry fetch deep (pyNormalize source))
    (pairs.filterMap Prod.fst, (pairs.map Prod.snd).flatten))

/-- `find_duplicated_spaces`: the list of Space ids duplicated from
`source` within the window. -/
def find_duplicated_spaces (fetch : String → FetchOutcome) (now : Int)
    (feed : List SpaceEntry) (source : String) (days : Nat) (deep : Bool) :
    Except String (List String) :=
  (find_duplicated_spaces_traced fetch now feed source days deep).map Prod.fst

/-- The README fetches a `find_duplicated_spaces` run performs. -/
def find_fetch_trace (fetch : String → FetchOutcome) (now : Int)
    (feed : List SpaceEntry) (source : String) (days : Nat) (deep : Bool) :
    Except String (List String) :=
  (find_duplicated_spaces_traced fetch now feed source days deep).map Prod.snd

/-! ## Lemmas about end-trimming and case-folding -/

theorem dropWhile_head_not {α : Type} {p : α → Bool} :
    ∀ {l : List α} {a : α}, (l.dropWhile p).head? = some a → p a = false := by
  intro l
  induction l with
  | nil => intro a h; simp [List.dropWhile] at h
  | cons c l ih =>
    intro a h
    rw [List.dropWhile_cons] at h
    by_cases hp : p c
    · rw [if_pos hp] at h; exact ih h
    · rw [if_neg hp] at h
      simp only [List.head?_cons, Option.some.injEq] at h
      subst h
      exact Bool.eq_false_iff.mpr hp

theorem dropWhile_eq_self_of_head {α : Type} {p : α → Bool} {l : List α}
    (h : ∀ a, l.head? = some a → p a = false) : l.dropWhile p = l := by
  cases l with
  | nil => rfl
  | cons c l =>
    rw [List.dropWhile_cons, if_neg]
    simp [h c rfl]

theorem getLast?_dropWhile_ne_nil {α : Type} {p : α → Bool} :
    ∀ {l : List α}, l.dropWhile p ≠ [] → (l.dropWhile p).getLast? = l.getLast? := by
  intro l
  induction l with
  | nil => intro h; simp [List.dropWhile] at h
  | cons c l ih =>
    intro h
    rw [List.dropWhile_cons]
    by_cases hp : p c
    · rw [List.dropWhile_cons, if_pos hp] at h
      have hl : l ≠ [] := by
        intro e; subst e; simp [List.dropWhile] at h
      rw [if_pos hp, ih h]
      cases l with
      | nil => exact absurd rfl hl
      | cons b l => rw [List.getLast?_cons_cons]
    · rw [if_neg hp]

theorem stripL_head_not {p : Char → Bool} {l : List Char} {a : Char}
    (h : (stripL p l).head? = some a) : p a = false := by
  unfold stripL at h
  rw [List.head?_reverse] at h
  have hne : (l.dropWhile p).reverse.dropWhile p ≠ [] := by
    intro h0; rw [h0] at h; simp at h
  rw [getLast?_dropWhile_ne_nil hne, List.getLast?_reverse] at h
  exact dropWhile_head_not h

theorem stripL_getLast_not {p : Char → Bool} {l : List Char} {a : Char}
    (h : (stripL p l).getLast? = some a) : p a = false := by
  unfold stripL at h
  rw [List.getLast?_reverse] at h
  exact dropWhile_head_not h

theorem stripL_eq_self {p : Char → Bool} {l : List Char}
    (h1 : ∀ a, l.head? = some a → p a = false)
    (h2 : ∀ a, l.getLast? = some a → p a = false) : stripL p l = l := by
  unfold stripL
  rw [dropWhile_eq_self_of_head h1]
  have h3 : l.reverse.dropWhile p = l.reverse := by
    apply dropWhile_eq_self_of_head
    intro a ha
    rw [List.head?_reverse] at ha
    exact h2 a ha
  rw [h3, List.reverse_reverse]

theorem mem_stripL {p : Char → Bool} {l : List Char} {a : Char}
    (h : a ∈ stripL p l) : a ∈ l := by
  unfold stripL at h
  rw [List.mem_reverse] at h
  have h2 : a ∈ (l.dropWhile p).reverse := (List.dropWhile_sublist p).mem h
  rw [List.mem_reverse] at h2
  exact (List.dropWhile_sublist p).mem h2

theorem char_toNat_ofNat_valid {n : Nat} (h : n < 55296) : (Char.ofNat n).toNat = n := by
  unfold Char.ofNat
  rw [dif_pos (Or.inl h)]
  rfl

theorem toLower_cases (c : Char) :
    Char.toLower c = c ∨
      (65 ≤ c.toNat ∧ c.toNat ≤ 90 ∧ (Char.toLower c).toNat = c.toNat + 32) := by
  unfold Char.toLower
  by_cases h : c.toNat ≥ 65 ∧ c.toNat ≤ 90
  · right
    rw [if_pos h]
    exact ⟨h.1, h.2, char_toNat_ofNat_valid (by omega)⟩
  · left
    rw [if_neg h]

theorem toLower_idem (c : Char) : Char.toLower (Char.toLower c) = Char.toLower c := by
  rcases toLower_cases c with h | ⟨_, _, h3⟩
  · rw [h, h]
  · rcases toLower_cases (Char.toLower c) with h' | ⟨h1', _, _⟩
    · exact h'
    · omega

theorem pyIsSpace_eq_false_of_ascii_letter {x : Char} (h1 : 65 ≤ x.toNat)
    (h2 : x.toNat ≤ 122) : pyIsSpace x = false := by
  unfold pyIsSpace
  simp only [decide_eq_false_iff_not]
  omega

theorem isSlashSpace_eq_false_of_65_le {x : Char} (h : 65 ≤ x.toNat) :
    isSlashSpace x = false := by
  have hs : ∀ d : Char, d.toNat < 65 → x ≠ d := by
    intro d hd e; subst e; omega
  simp only [isSlashSpace, Bool.or_eq_false_iff, decide_eq_false_iff_not]
  exact ⟨hs '/' (by decide), hs ' ' (by decide)⟩

theorem pyIsSpace_toLower (c : Char) : pyIsSpace (Char.toLower c) = pyIsSpace c := by
  rcases toLower_cases c with h | ⟨h1, h2, h3⟩
  · rw [h]
  · rw [pyIsSpace_eq_false_of_ascii_letter (by omega) (by omega),
      pyIsSpace_eq_false_of_ascii_letter h1 (by omega)]

theorem isSlashSpace_toLower (c : Char) :
    isSlashSpace (Char.toLower c) = isSlashSpace c := by
  rcases toLower_cases c with h | ⟨h1, _, h3⟩
  · rw [h]
  · rw [isSlashSpace_eq_false_of_65_le h1, isSlashSpace_eq_false_of_65_le (by omega)]

theorem normalizeL_idem (l : List Char) (h : ∀ c ∈ l, pyIsSpace c = true → c = ' ') :
    (stripL isSlashSpace (stripL pyIsSpace
        ((stripL isSlashSpace (stripL pyIsSpace l)).map Char.toLower))).map Char.toLower
      = (stripL isSlashSpace (stripL pyIsSpace l)).map Char.toLower := by
  set u := stripL isSlashSpace (stripL pyIsSpace l) with hu
  have humem : ∀ c ∈ u, c ∈ l := fun c hc => mem_stripL (mem_stripL hc)
  have hh2 : ∀ a, u.head? = some a → isSlashSpace a = false := fun a ha => stripL_head_not ha
  have hl2 : ∀ a, u.getLast? = some a → isSlashSpace a = false :=
    fun a ha => stripL_getLast_not ha
  have hh1 : ∀ a, u.head? = some a → pyIsSpace a = false := by
    intro a ha
    cases hsp : pyIsSpace a with
    | false => rfl
    | true =>
      have hmem : a ∈ u := List.mem_of_mem_head? (by rw [ha]; rfl)
      have hsp' : a = ' ' := h a (humem a hmem) hsp
      have := hh2 a ha
      rw [hsp'] at this
      simp [isSlashSpace] at this
  have hl1 : ∀ a, u.getLast? = some a → pyIsSpace a = false := by
    intro a ha
    cases hsp : pyIsSpace a with
    | false => rfl
    | true =>
      have hmem : a ∈ u := List.mem_of_getLast?_eq_some ha
      have hsp' : a = ' ' := h a (humem a hmem) hsp
      have := hl2 a ha
      rw [hsp'] at this
      simp [isSlashSpace] at this
  have hh1' : ∀ a, (u.map Char.toLower).head? = some a → pyIsSpace a = false := by
    intro a ha
    rw [List.head?_map] at ha
    cases hu0 : u.head? with
    | none => rw [hu0] at ha; simp at ha
    | some b =>
      rw [hu0] at ha
      simp only [Option.map_some'] at ha
      cases ha
      rw [pyIsSpace_toLower]
      exact hh1 b hu0
  have hl1' : ∀ a, (u.map Char.toLower).getLast? = some a → pyIsSpace a = false := by
    intro a ha
    rw [List.getLast?_map] at ha
    cases hu0 : u.getLast? with
    | none => rw [hu0] at ha; simp at ha
    | some b =>
      rw [hu0] at ha
      simp only [Option.map_some'] at ha
      cases ha
      rw [pyIsSpace_toLower]
      exact hl1 b hu0
  have hh2' : ∀ a, (u.map Char.toLower).head? = some a → isSlashSpace a = false := by
    intro a ha
    rw [List.head?_map] at ha
    cases hu0 : u.head? with
    | none => rw [hu0] at ha; simp at ha
    | some b =>
      rw [hu0] at ha
      simp only [Option.map_some'] at ha
      cases ha
      rw [isSlashSpace_toLower]
      exact hh2 b hu0
  have hl2' : ∀ a, (u.map Char.toLower).getLast? = some a → isSlashSpace a = false := by
    intro a ha
    rw [List.getLast?_map] at ha
    cases hu0 : u.getLast? with
    | none => rw [hu0] at ha; simp at ha
    | some b =>
      rw [hu0] at ha
      simp only [Option.map_some'] at ha
      cases ha
      rw [isSlashSpace_toLower]
      exact hl2 b hu0
  rw [stripL_eq_self hh1' hl1', stripL_eq_self hh2' hl2', List.map_map]
  apply List.map_congr_left
  intro a _
  exact toLower_idem a

/-- C4 counterexample: on the input `"/\t/"` (a tab guarded by slashes) the
pipeline's normalization — `strip()` then `strip("/ ")` then case-folding —
is not idempotent: the first pass exposes the tab (`"\t"`), and only the
second pass removes it (yielding `""`). -/
theorem c4_normalize_not_idem_counterexample :
    specNormalize (specNormalize "/\t/") ≠ specNormalize "/\t/" := by
  decide

/-- C4 (amended): the pipeline normalization (trim whitespace, trim
slashes/spaces, case-fold) is idempotent on every string whose only
whitespace character is the plain space `' '` — in particular on all
`owner/name` identifiers.  (Unrestricted idempotence fails: a whitespace
character other than `' '` guarded by slashes, as in `"/\t/"`, survives one
pass and is removed by the next.) -/
theorem c4_normalize_idem_space_only (s : String)
    (h : ∀ c ∈ s.data, pyIsSpace c = true → c = ' ') :
    specNormalize (specNormalize s) = specNormalize s := by
  have key : specNormalize (specNormalize s)
      = ⟨(stripL isSlashSpace (stripL pyIsSpace
          ((stripL isSlashSpace (stripL pyIsSpace s.data)).map Char.toLower))).map
            Char.toLower⟩ := rfl
  have key2 : specNormalize s
      = ⟨(stripL isSlashSpace (stripL pyIsSpace s.data)).map Char.toLower⟩ := rfl
  rw [key, key2]
  exact congrArg String.mk (normalizeL_idem s.data h)

/-- Witness for C4 (amended) at the concrete input `"Owner/Space "`. -/
theorem c4_normalize_idem_space_only_witness :
    (∀ c ∈ ("Owner/Space " : String).data, pyIsSpace c = true → c = ' ') ∧
      specNormalize (specNormalize "Owner/Space ") = specNormalize "Owner/Space " :=
  ⟨by decide, c4_normalize_idem_space_only "Owner/Space " (by decide)⟩

/-! ## Lemmas about the pipeline's loop structure -/

theorem goRecent_cons_cases (cutoff : Int) (e : SpaceEntry) (rest : List SpaceEntry)
    (hok : (entryEpoch e).isOk = true) :
    goRecent cutoff (e :: rest) = (goRecent cutoff rest).map (fun l => e :: l) ∨
      goRecent cutoff (e :: rest) = goRecent cutoff rest := by
  cases hE : entryEpoch e with
  | error err => rw [hE] at hok; simp [Except.isOk, Except.toBool] at hok
  | ok o =>
    cases o with
    | none => left; simp [goRecent, hE]
    | some t =>
      by_cases ht : cutoff ≤ t
      · left; simp [goRecent, hE, ht]
      · right; simp [goRecent, hE, ht]

theorem traced_cons_skip (fetch : String → FetchOutcome) (now : Int) (days : Nat)
    (source : String) (deep : Bool) (e : SpaceEntry) (rest : List SpaceEntry)
    (hcl : classifyEntry fetch deep (pyNormalize source) e = (none, []))
    (hok : (entryEpoch e).isOk = true) :
    find_duplicated_spaces_traced fetch now (e :: rest) source days deep
      = find_duplicated_spaces_traced fetch now rest source days deep := by
  unfold find_duplicated_spaces_traced get_recent_spaces
  rcases goRecent_cons_cases (now - (days : Int) * usecPerDay) e rest hok with h | h
  · rw [h]
    cases hR : goRecent (now - (days : Int) * usecPerDay) rest with
    | error err => rfl
    | ok l =>
      show Except.ok _ = Except.ok _
      simp [hcl]
  · rw [h]

theorem find_cons_nonmatch (fetch : String → FetchOutcome) (now : Int) (days : Nat)
    (source : String) (deep : Bool) (e : SpaceEntry) (rest : List SpaceEntry)
    (hcl : (classifyEntry fetch deep (pyNormalize source) e).1 = none)
    (hok : (entryEpoch e).isOk = true) :
    find_duplicated_spaces fetch now (e :: rest) source days deep
      = find_duplicated_spaces fetch now rest source days deep := by
  unfold find_duplicated_spaces find_duplicated_spaces_traced get_recent_spaces
  rcases goRecent_cons_cases (now - (days : Int) * usecPerDay) e rest hok with h | h
  · rw [h]
    cases hR : goRecent (now - (days : Int) * usecPerDay) rest with
    | error err => rfl
    | ok l =>
      show Except.ok _ = Except.ok _
      simp [hcl]
  · rw [h]

/-- C8: an entry with no recognized card-metadata claim is, with deep
detection disabled, reported as no match with no README fetch attempt at
all; consequently the entry contributes nothing to a
`find_duplicated_spaces` run with deep detection off. -/
theorem c8_no_deep_no_fetch_no_match (fetch : String → FetchOutcome) (e : SpaceEntry)
    (h : cardClaimOf e = none) :
    (∀ src, classifyEntry fetch false src e = (none, [])) ∧
      (∀ (now : Int) (days : Nat) (source : String) (rest : List SpaceEntry),
        (entryEpoch e).isOk = true →
        find_duplicated_spaces_traced fetch now (e :: rest) source days false
          = find_duplicated_spaces_traced fetch now rest source days false) := by
  have hcl : ∀ src, classifyEntry fetch false src e = (none, []) := by
    intro src
    unfold classifyEntry
    cases hid : resolveSpaceId e with
    | none => rfl
    | some sid => simp [resolveClaim, h, optTruthy]
  exact ⟨hcl, fun now days source rest hok =>
    traced_cons_skip fetch now days source false e rest (hcl (pyNormalize source)) hok⟩

/-- Witness for C8 at a concrete entry whose card metadata has no
recognized key. -/
theorem c8_no_deep_no_fetch_no_match_witness :
    cardClaimOf { id := some "a/b", cardData := some [("x", PyVal.str "y")] } = none ∧
      classifyEntry (fun _ => FetchOutcome.exc) false "acme/base"
        { id := some "a/b", cardData := some [("x", PyVal.str "y")] } = (none, []) :=
  ⟨by decide, (c8_no_deep_no_fetch_no_match (fun _ => FetchOutcome.exc)
    { id := some "a/b", cardData := some [("x", PyVal.str "y")] } (by decide)).1 "acme/base"⟩

/-- C9: an entry whose `id` and `repo_id` attributes are both absent or
falsy is silently skipped: its loop iteration reports no match and fetches
nothing, and (when its timestamp is readable) dropping it from the feed
leaves the whole run, results and fetch trace alike, unchanged. -/
theorem c9_falsy_id_skipped (fetch : String → FetchOutcome) (deep : Bool) (e : SpaceEntry)
    (h : resolveSpaceId e = none) :
    (∀ src, classifyEntry fetch deep src e = (none, [])) ∧
      (∀ (now : Int) (days : Nat) (source : String) (rest : List SpaceEntry),
        (entryEpoch e).isOk = true →
        find_duplicated_spaces_traced fetch now (e :: rest) source days deep
          = find_duplicated_spaces_traced fetch now rest source days deep) := by
  have hcl : ∀ src, classifyEntry fetch deep src e = (none, []) := by
    intro src
    unfold classifyEntry
    rw [h]
  exact ⟨hcl, fun now days source rest hok =>
    traced_cons_skip fetch now days source deep e rest (hcl (pyNormalize source)) hok⟩

/-- Witness for C9 at a concrete entry with falsy `id` and `repo_id`
(empty strings), matching card metadata notwithstanding. -/
theorem c9_falsy_id_skipped_witness :
    resolveSpaceId { id := some "", repo_id := some "", cardData := some [("duplicated_from", PyVal.str "acme/base")] } = none ∧
      find_duplicated_spaces_traced (fun _ => FetchOutcome.exc) 0
          [{ id := some "", repo_id := some "", cardData := some [("duplicated_from", PyVal.str "acme/base")] }]
          "acme/base" 14 true
        = find_duplicated_spaces_traced (fun _ => FetchOutcome.exc) 0 [] "acme/base" 14 true :=
  ⟨by decide, (c9_falsy_id_skipped (fun _ => FetchOutcome.exc) true
      { id := some "", repo_id := some "", cardData := some [("duplicated_from", PyVal.str "acme/base")] } (by decide)).2
    0 14 "acme/base" [] (by decide)⟩

/-- C6: when the README fetch for a Space fails — the request raises or
the response status is not 200 — `readme_frontmatter_duplicated_from`
returns no claim instead of raising, and `find_duplicated_spaces` treats
an entry that depended on that fetch as a non-duplicate and continues with
the rest of the feed unchanged. -/
theorem c6_fetch_failure_absorbed (fetch : String → FetchOutcome) (sid : String)
    (hfail : ∀ text, fetch sid ≠ FetchOutcome.resp 200 text) :
    readme_frontmatter_duplicated_from fetch sid = none ∧
      (∀ (e : SpaceEntry) (now : Int) (days : Nat) (source : String) (deep : Bool)
          (rest : List SpaceEntry),
        resolveSpaceId e = some sid → optTruthy (cardClaimOf e) = false →
        (entryEpoch e).isOk = true →
        (classifyEntry fetch deep (pyNormalize source) e).1 = none ∧
          find_duplicated_spaces fetch now (e :: rest) source days deep
            = find_duplicated_spaces fetch now rest source days deep) := by
  have hrd : readme_frontmatter_duplicated_from fetch sid = none := by
    unfold readme_frontmatter_duplicated_from
    cases hf : fetch sid with
    | exc => rfl
    | resp status text =>
      by_cases hs : status = 200
      · subst hs; exact absurd hf (hfail text)
      · simp [hs]
  refine ⟨hrd, fun e now days source deep rest hid hcard hok => ?_⟩
  have hcl : (classifyEntry fetch deep (pyNormalize source) e).1 = none := by
    unfold classifyEntry
    rw [hid]
    unfold resolveClaim
    cases deep with
    | true => simp [hrd, hcard]
    | false =>
      cases hv : cardClaimOf e with
      | none => simp [hv]
      | some c =>
        rw [hv] at hcard
        simp only [optTruthy] at hcard
        simp [hv, hcard]
  exact ⟨hcl, find_cons_nonmatch fetch now days source deep e rest hcl hok⟩

/-- Witness for C6 at a concrete 404 response. -/
theorem c6_fetch_failure_absorbed_witness :
    readme_frontmatter_duplicated_from (fun _ => FetchOutcome.resp 404 "x") "a/b" = none ∧
      (classifyEntry (fun _ => FetchOutcome.resp 404 "x") true (pyNormalize "acme/base")
        { id := some "a/b" }).1 = none := by
  have H := c6_fetch_failure_absorbed (fun _ => FetchOutcome.resp 404 "x") "a/b"
    (fun text h => by injection h with h1 _; exact absurd h1 (by decide))
  exact ⟨H.1, (H.2 { id := some "a/b" } 0 14 "acme/base" true [] (by decide) (by decide)
    (by decide)).1⟩

theorem fmScan_none_of_no_key :
    ∀ (ls : List String) (b : Bool),
      (∀ l ∈ ls, lPrefixOf "duplicated_from:".data (pyStrip pyIsSpace l).data = false) →
      fmScan ls b = none := by
  intro ls
  induction ls with
  | nil => intro b _; rfl
  | cons l ls ih =>
    intro b h
    have hl := (h l (List.mem_cons_self l ls)).symm
    unfold fmScan
    by_cases h1 : pyStrip pyIsSpace l = "---"
    · rw [if_pos h1]
      cases b with
      | true => rfl
      | false => exact ih true (fun x hx => h x (List.mem_cons_of_mem l hx))
    · rw [if_neg h1]
      rw [← hl]
      simp only [Bool.and_false, Bool.false_eq_true, if_false]
      exact ih b (fun x hx => h x (List.mem_cons_of_mem l hx))

theorem fmScan_append_skip :
    ∀ (pre tail : List String),
      (∀ l ∈ pre, pyStrip pyIsSpace l ≠ "---" ∧
        lPrefixOf "duplicated_from:".data (pyStrip pyIsSpace l).data = false) →
      fmScan (pre ++ tail) true = fmScan tail true := by
  intro pre
  induction pre with
  | nil => intro tail _; rfl
  | cons l pre ih =>
    intro tail h
    have hl := h l (List.mem_cons_self l pre)
    have step : fmScan (l :: (pre ++ tail)) true = fmScan (pre ++ tail) true := by
      simp only [fmScan]
      rw [if_neg hl.1, hl.2]
      simp
    rw [List.cons_append, step]
    exact ih tail (fun x hx => h x (List.mem_cons_of_mem l hx))

/-- C5: the frontmatter scan (i) on the spec's example document yields the
claim `acme/base-space` with quotes and whitespace stripped, (ii) stops
with no claim the moment a bare `---` line closes the block, whatever
lines follow, and (iii) yields no claim on any document none of whose
lines carries the `duplicated_from:` key. -/
theorem c5_frontmatter_scan :
    fmExtract "---\ntitle: Demo\nduplicated_from: \"acme/base-space\"\n---\nbody text"
        = some "acme/base-space" ∧
      (∀ (line : String) (rest : List String), pyStrip pyIsSpace line = "---" →
        fmScan (line :: rest) true = none) ∧
      (∀ text : String,
        (∀ l ∈ pySplitlines text,
          lPrefixOf "duplicated_from:".data (pyStrip pyIsSpace l).data = false) →
        fmExtract text = none) := by
  refine ⟨by decide, ?_, ?_⟩
  · intro line rest h
    simp [fmScan, h]
  · intro text h
    exact fmScan_none_of_no_key (pySplitlines text) false h

/-- Witness for C5: a closing `---` line ends the scan with no claim even
when a `duplicated_from:` line follows it, and a keyless document yields
no claim. -/
theorem c5_frontmatter_scan_witness :
    (pyStrip pyIsSpace "  ---  " = "---" ∧
      fmScan ["  ---  ", "duplicated_from: x"] true = none) ∧
      fmExtract "---\ntitle: Demo\n---\nbody" = none :=
  ⟨⟨by decide, c5_frontmatter_scan.2.1 "  ---  " ["duplicated_from: x"] (by decide)⟩,
    c5_frontmatter_scan.2.2 "---\ntitle: Demo\n---\nbody" (by decide)⟩

/-- C10: a frontmatter block opened by a `---` line but never closed still
yields the value of the first `duplicated_from:` line inside it — the
lines after that line (`post`) are completely unconstrained, so no closing
delimiter is needed for a successful claim; and any 200-status README
whose lines read that way resolves to that claim. -/
theorem c10_unclosed_frontmatter_still_yields (fmLine : String) (pre : List String)
    (dupLine : String) (post : List String) (v : String)
    (hfm : pyStrip pyIsSpace fmLine = "---")
    (hpre : ∀ l ∈ pre, pyStrip pyIsSpace l ≠ "---" ∧
      lPrefixOf "duplicated_from:".data (pyStrip pyIsSpace l).data = false)
    (hdup : lPrefixOf "duplicated_from:".data (pyStrip pyIsSpace dupLine).data = true)
    (hval : fmLineValue dupLine = some v) :
    fmScan (fmLine :: (pre ++ dupLine :: post)) false = some v ∧
      (∀ (fetch : String → FetchOutcome) (sid : String) (text : String),
        fetch sid = FetchOutcome.resp 200 text →
        pySplitlines text = fmLine :: (pre ++ dupLine :: post) →
        readme_frontmatter_duplicated_from fetch sid = some v) := by
  have hscan : fmScan (fmLine :: (pre ++ dupLine :: post)) false = some v := by
    show fmScan (fmLine :: (pre ++ dupLine :: post)) false = some v
    unfold fmScan
    rw [if_pos hfm]
    rw [fmScan_append_skip pre (dupLine :: post) hpre]
    have hne : pyStrip pyIsSpace dupLine ≠ "---" := by
      intro h0
      rw [h0] at hdup
      exact absurd hdup (by decide)
    unfold fmScan
    rw [if_neg hne, hdup]
    simp only [Bool.and_true, Bool.true_and, if_true]
    exact hval
  refine ⟨hscan, fun fetch sid text hf hlines => ?_⟩
  unfold readme_frontmatter_duplicated_from
  rw [hf]
  simp only [ne_eq, not_true_eq_false, if_false, ite_false]
  unfold fmExtract
  rw [hlines]
  exact hscan

/-- Witness for C10 at a concrete unclosed document. -/
theorem c10_unclosed_frontmatter_still_yields_witness :
    pyStrip pyIsSpace "---" = "---" ∧
      fmScan ("---" :: (["title: Demo"] ++ "duplicated_from: 'acme/x'" :: ["body text"]))
        false = some "acme/x" :=
  ⟨by decide,
    (c10_unclosed_frontmatter_still_yields "---" ["title: Demo"] "duplicated_from: 'acme/x'"
      ["body text"] "acme/x" (by decide) (by decide) (by decide) (by decide)).1⟩

/-- C3 counterexample: an entry whose card metadata holds the recognized
key `duplicated_from` with the string value `"/"` — a value that trims to
the empty string — does trigger a README fetch when deep detection is on,
because the code tests the truthiness of the already-trimmed value. -/
theorem c3_card_string_value_fetches_counterexample :
    dictGet [("duplicated_from", PyVal.str "/")] "duplicated_from"
        = some (PyVal.str "/") ∧
      (classifyEntry (fun _ => FetchOutcome.exc) true "x"
        { id := some "a/b", cardData := some [("duplicated_from", PyVal.str "/")] }).2
        = ["a/b"] := by
  decide

/-- C3 (amended): for every entry whose card metadata resolves, under the
three-key priority rule, to a string value that is still non-empty after
trimming surrounding slashes and whitespace, the classifier uses that
trimmed value as the entry's claim and performs no README fetch for the
entry, even with deep detection enabled.  (Without the non-emptiness
proviso the claim fails: a value trimming to `""` is falsy and sends the
code into the fallback fetch.) -/
theorem c3_card_claim_no_fetch (fetch : String → FetchOutcome) (deep : Bool) (src : String)
    (e : SpaceEntry) (sid c : String)
    (hid : resolveSpaceId e = some sid)
    (hcard : cardClaimOf e = some c) (hne : c ≠ "") :
    resolveClaim fetch deep e sid = some c ∧ (classifyEntry fetch deep src e).2 = [] := by
  have htr : optTruthy (cardClaimOf e) = true := by
    rw [hcard]
    simp [optTruthy, strTruthy, hne]
  constructor
  · unfold resolveClaim
    simp [hcard, optTruthy, strTruthy, hne]
  · unfold classifyEntry
    rw [hid]
    cases hrc : resolveClaim fetch deep e sid with
    | some d => simp [hrc, htr]
    | none => simp [hrc, htr]

/-- Witness for C3 (amended) at a concrete entry with a non-degenerate
metadata claim. -/
theorem c3_card_claim_no_fetch_witness :
    cardClaimOf { id := some "a/b", cardData := some [("duplicated_from", PyVal.str " ACME/Base/ ")] } = some "ACME/Base" ∧
      resolveClaim (fun _ => FetchOutcome.exc) true
          { id := some "a/b", cardData := some [("duplicated_from", PyVal.str " ACME/Base/ ")] }
          "a/b" = some "ACME/Base" ∧
      (classifyEntry (fun _ => FetchOutcome.exc) true "acme/base"
        { id := some "a/b", cardData := some [("duplicated_from", PyVal.str " ACME/Base/ ")] }).2 = [] := by
  have H := c3_card_claim_no_fetch (fun _ => FetchOutcome.exc) true "acme/base"
    { id := some "a/b", cardData := some [("duplicated_from", PyVal.str " ACME/Base/ ")] }
    "a/b" "ACME/Base" (by decide) (by decide) (by decide)
  exact ⟨by decide, H.1, H.2⟩

/-- C1 counterexample: with query source `"/"` and an entry whose metadata
claim `"/"` resolves (after trimming) to `""`, the resolved claim equals
the query source under the spec's normalization (both normalize to `""`),
yet `find_duplicated_spaces` reports no match — the code additionally
requires the resolved claim to be truthy. -/
theorem c1_match_iff_counterexample :
    resolveClaim (fun _ => FetchOutcome.exc) false
        { id := some "a/b", cardData := some [("duplicated_from", PyVal.str "/")] } "a/b"
        = some "" ∧
      specNormalize "" = specNormalize "/" ∧
      find_duplicated_spaces (fun _ => FetchOutcome.exc) 0
        [{ id := some "a/b", cardData := some [("duplicated_from", PyVal.str "/")] }]
        "/" 14 false = Except.ok [] := by
  refine ⟨by decide, by decide, ?_⟩
  rfl

/-- C1 (amended): for every entry with a resolved id, the classifier
reports a match iff the entry's resolved duplication claim is non-empty
(after the code's trimming) and equals the trimmed query source
case-insensitively.  (The bare normalized-equality reading fails when both
sides normalize to the empty string, which the code treats as falsy.) -/
theorem c1_match_iff (fetch : String → FetchOutcome) (deep : Bool) (source : String)
    (e : SpaceEntry) (sid : String) (hid : resolveSpaceId e = some sid) :
    (classifyEntry fetch deep (pyNormalize source) e).1 = some sid ↔
      ∃ c, resolveClaim fetch deep e sid = some c ∧ c ≠ "" ∧
        pyLower c = pyLower (pyNormalize source) := by
  cases hrc : resolveClaim fetch deep e sid with
  | none =>
    have hL : (classifyEntry fetch deep (pyNormalize source) e).1 = none := by
      unfold classifyEntry
      rw [hid]
      simp [hrc]
    rw [hL]
    simp
  | some c =>
    have hL : (classifyEntry fetch deep (pyNormalize source) e).1
        = (if strTruthy c ∧ pyLower c = pyLower (pyNormalize source) then some sid
           else none) := by
      unfold classifyEntry
      rw [hid]
      simp [hrc]
    rw [hL]
    constructor
    · intro h
      split at h
      · next hcond =>
        refine ⟨c, rfl, ?_, hcond.2⟩
        intro he
        rw [he] at hcond
        exact absurd hcond.1 (by decide)
      · exact absurd h (by simp)
    · rintro ⟨c', hc', hne, heq⟩
      injection hc' with hc'
      subst hc'
      rw [if_pos ⟨by simp [strTruthy, hne], heq⟩]

/-- Witness for C1 (amended): the spec's round-trip scenario — query
`"owner/space"` against a metadata claim `"Owner/Space "` — reported as a
match through the iff. -/
theorem c1_match_iff_witness :
    resolveSpaceId { id := some "a/b", cardData := some [("duplicated_from", PyVal.str "Owner/Space ")] } = some "a/b" ∧
      (classifyEntry (fun _ => FetchOutcome.exc) false (pyNormalize "owner/space")
        { id := some "a/b", cardData := some [("duplicated_from", PyVal.str "Owner/Space ")] }).1
        = some "a/b" :=
  ⟨by decide,
    (c1_match_iff (fun _ => FetchOutcome.exc) false "owner/space"
        { id := some "a/b", cardData := some [("duplicated_from", PyVal.str "Owner/Space ")] }
        "a/b" (by decide)).mpr
      ⟨"Owner/Space", by decide, by decide, by decide⟩⟩

/-- The membership condition of the window filter: an entry is kept iff
its creation attribute is absent/falsy, or its creation instant is at or
after the cutoff (inclusive). -/
def inWindow (cutoff : Int) (e : SpaceEntry) : Bool :=
  match entryEpoch e with
  | Except.ok none => true
  | Except.ok (some t) => decide (cutoff ≤ t)
  | Except.error _ => false

/-- C2: on any feed, in any order, whose timestamps are all readable,
`get_recent_spaces` returns exactly the feed's entries whose creation
instant is at or after `now - days` (an entry exactly at the cutoff is
kept, one a second — or any amount — earlier is dropped) together with
every entry lacking a creation time, in feed order; being a `filter` of the
whole feed, the scan never stops early at an out-of-window entry. -/
theorem c2_window_filter (now : Int) (days : Nat) (feed : List SpaceEntry)
    (h : ∀ e ∈ feed, (entryEpoch e).isOk = true) :
    get_recent_spaces now days feed
      = Except.ok (feed.filter (inWindow (now - (days : Int) * usecPerDay))) := by
  unfold get_recent_spaces
  induction feed with
  | nil => rfl
  | cons e rest ih =>
    have he := h e (List.mem_cons_self e rest)
    have hrest := ih (fun x hx => h x (List.mem_cons_of_mem e hx))
    cases hE : entryEpoch e with
    | error err => rw [hE] at he; simp [Except.isOk, Except.toBool] at he
    | ok o =>
      cases o with
      | none =>
        simp only [goRecent, hE]
        rw [hrest]
        simp [List.filter_cons, inWindow, hE, Except.map]
      | some t =>
        by_cases ht : now - (days : Int) * usecPerDay ≤ t
        · simp only [goRecent, hE, if_pos ht]
          rw [hrest]
          simp [List.filter_cons, inWindow, hE, ht, Except.map]
        · simp only [goRecent, hE, if_neg ht]
          rw [hrest]
          simp [List.filter_cons, inWindow, hE, ht, Except.map]

/-- Witness for C2: a four-entry feed — one exactly at the cutoff (kept),
one a second earlier (dropped), one without a creation time (kept), one
with an ISO-string timestamp inside the window (kept) — in feed order. -/
theorem c2_window_filter_witness :
    (∀ e ∈ [({ id := some "x", created_at := some (RawTime.dt 1704078245000000) } : SpaceEntry),
        { id := some "y", created_at := some (RawTime.dt 1704078244000000) },
        { id := some "z" },
        { id := some "w", created_at := some (RawTime.str "2024-01-02T03:04:05Z") }],
      (entryEpoch e).isOk = true) ∧
      get_recent_spaces 1704164645000000 1
          [{ id := some "x", created_at := some (RawTime.dt 1704078245000000) },
           { id := some "y", created_at := some (RawTime.dt 1704078244000000) },
           { id := some "z" },
           { id := some "w", created_at := some (RawTime.str "2024-01-02T03:04:05Z") }]
        = Except.ok
            [{ id := some "x", created_at := some (RawTime.dt 1704078245000000) },
             { id := some "z" },
             { id := some "w", created_at := some (RawTime.str "2024-01-02T03:04:05Z") }] := by
  refine ⟨by decide, ?_⟩
  rw [c2_window_filter 1704164645000000 1 _ (by decide)]
  rfl

/-! ## Characterizing the accepted timestamp formats -/

/-- The two zero-padded digits of `n < 100`. -/
def render2 (n : Nat) : List Char :=
  [digitChar (n / 10), digitChar (n % 10)]

/-- The four zero-padded digits of `n < 10000`. -/
def render4 (n : Nat) : List Char :=
  render2 (n / 100) ++ render2 (n % 100)

theorem char_toNat_le_of_le {a b : Char} (h : a ≤ b) : a.toNat ≤ b.toNat :=
  BitVec.le_def.mp (UInt32.le_def.mp (Char.le_def.mp h))

theorem char_eq_of_toNat_eq {a b : Char} (h : a.toNat = b.toNat) : a = b :=
  Char.eq_of_val_eq (UInt32.toNat.inj h)

theorem digitChar_toNat {x : Nat} (hx : x ≤ 9) : (digitChar x).toNat = 48 + x := by
  interval_cases x <;> decide

theorem digitVal_sound {c : Char} {x : Nat} (h : digitVal c = some x) :
    x ≤ 9 ∧ c = digitChar x := by
  unfold digitVal at h
  by_cases hc : '0' ≤ c ∧ c ≤ '9'
  · rw [if_pos hc] at h
    injection h with h
    have hlo : 48 ≤ c.toNat := by
      have h0 : ('0' : Char).toNat = 48 := by decide
      have := char_toNat_le_of_le hc.1
      omega
    have hhi : c.toNat ≤ 57 := by
      have h9 : ('9' : Char).toNat = 57 := by decide
      have := char_toNat_le_of_le hc.2
      omega
    subst h
    refine ⟨by omega, ?_⟩
    apply char_eq_of_toNat_eq
    rw [digitChar_toNat (by omega)]
    omega
  · rw [if_neg hc] at h
    exact Option.noConfusion h

theorem read2_sound {l r : List Char} {v : Nat} (h : read2 l = some (v, r)) :
    v ≤ 99 ∧ l = render2 v ++ r := by
  match l with
  | [] => exact Option.noConfusion h
  | [a] => exact Option.noConfusion h
  | a :: b :: rest =>
    simp only [read2] at h
    cases hda : digitVal a with
    | none => rw [hda] at h; exact Option.noConfusion h
    | some x =>
      cases hdb : digitVal b with
      | none => rw [hda, hdb] at h; exact Option.noConfusion h
      | some y =>
        rw [hda, hdb] at h
        injection h with h1
        injection h1 with h1 h2
        obtain ⟨hx9, hax⟩ := digitVal_sound hda
        obtain ⟨hy9, hby⟩ := digitVal_sound hdb
        subst h2
        constructor
        · omega
        · have hdiv : v / 10 = x := by omega
          have hmod : v % 10 = y := by omega
          rw [render2, hdiv, hmod, ← hax, ← hby]
          rfl

theorem read4_sound {l r : List Char} {v : Nat} (h : read4 l = some (v, r)) :
    v ≤ 9999 ∧ l = render4 v ++ r := by
  unfold read4 at h
  obtain ⟨⟨hi, r1⟩, h1, h⟩ := Option.bind_eq_some.mp h
  obtain ⟨⟨lo, r2⟩, h2, h⟩ := Option.bind_eq_some.mp h
  simp only [Option.some.injEq, Prod.mk.injEq] at h
  obtain ⟨hv, hr⟩ := h
  subst hv
  subst hr
  obtain ⟨hhi, hl1⟩ := read2_sound h1
  obtain ⟨hlo, hl2⟩ := read2_sound h2
  constructor
  · omega
  · have hdiv : (100 * hi + lo) / 100 = hi := by omega
    have hmod : (100 * hi + lo) % 100 = lo := by omega
    rw [render4, hdiv, hmod, hl1, hl2, List.append_assoc]

theorem expectCh_sound {c : Char} {l r : List Char} (h : expectCh c l = some r) :
    l = c :: r := by
  match l with
  | [] => exact Option.noConfusion h
  | a :: rest =>
    simp only [expectCh] at h
    by_cases hac : a = c
    · rw [if_pos hac] at h
      injection h with h
      rw [hac, h]
    · rw [if_neg hac] at h
      exact Option.noConfusion h

theorem takeDigits_sound :
    ∀ (n : Nat) (l : List Char) (ds : List Nat) (r : List Char),
      takeDigits n l = (ds, r) →
      ds.length ≤ n ∧ (∀ x ∈ ds, x ≤ 9) ∧ l = ds.map digitChar ++ r := by
  intro n
  induction n with
  | zero =>
    intro l ds r h
    unfold takeDigits at h
    cases h
    simp
  | succ n ih =>
    intro l ds r h
    match l with
    | [] =>
      unfold takeDigits at h
      cases h
      simp
    | c :: rest =>
      unfold takeDigits at h
      cases hdc : digitVal c with
      | none =>
        rw [hdc] at h
        cases h
        simp
      | some d =>
        rw [hdc] at h
        cases htd : takeDigits n rest with
        | mk ds' r' =>
          rw [htd] at h
          cases h
          obtain ⟨hlen, hdig, hrest⟩ := ih rest ds' r' htd
          obtain ⟨hd9, hcd⟩ := digitVal_sound hdc
          refine ⟨by simpa using hlen, ?_, ?_⟩
          · intro x hx
            rcases List.mem_cons.mp hx with rfl | hx
            · exact hd9
            · exact hdig x hx
          · rw [List.map_cons, hcd, hrest]
            rfl

theorem readFrac_sound {l r : List Char} {us : Nat} (h : readFrac l = some (us, r)) :
    ∃ ds : List Nat, ds ≠ [] ∧ ds.length ≤ 6 ∧ (∀ x ∈ ds, x ≤ 9) ∧
      l = ds.map digitChar ++ r ∧ us = digitsToNat ds * 10 ^ (6 - ds.length) := by
  unfold readFrac at h
  by_cases he : (takeDigits 6 l).1.isEmpty
  · rw [if_pos he] at h
    exact Option.noConfusion h
  · rw [if_neg he] at h
    injection h with h
    injection h with h1 h2
    cases htd : takeDigits 6 l with
    | mk ds r' =>
      rw [htd] at h1 h2 he
      simp only at h1 h2 he
      obtain ⟨hlen, hdig, hl⟩ := takeDigits_sound 6 l ds r' htd
      refine ⟨ds, ?_, hlen, hdig, ?_, h1.symm⟩
      · intro h0
        rw [h0] at he
        exact he rfl
      · rw [hl, h2]

end DuplicatedSpaces
